import Mathlib

/-!
Verification of the BayesDash Bayesian inference engine
(`src/components/StatisticalImagesGallery.js`, class `BayesianCalculator`).

The JavaScript numbers are modelled as real numbers.  The engine's only
source of randomness is `Math.random`, consumed inside `sampleBeta`; the
Monte Carlo layer is modelled by an explicit stream `src : ℕ → ℝ` whose
values are the successive outputs of the `sampleBeta` calls, together with
a cursor (`off`) that advances exactly as the code consumes draws.  The
two Beta-sampler loop bodies themselves are embedded separately, driven by
a stream of uniform pairs and a fuel bound (the code has no fuel: the
fueled embedding returns `none` when the unbounded loop would still be
running after `fuel` iterations).

JavaScript division is total and yields `NaN` on `0/0`; the quotients by
the configured sample count are the only divisions in the modelled code
whose denominator can be zero (and there the numerator is an empty sum,
hence `0`), so they are modelled by `jsDiv`, which returns the marker
`JSNum.nan` when the denominator is zero.
-/

namespace BayesDash

/-- Posterior / prior parameter pair `{alpha, beta}` as produced by
`calculatePosterior`. -/
structure BetaParams where
  alpha : ℝ
  beta : ℝ


/-- One per-arm observation record `{successes, trials}` as consumed by
`sequentialTest`. -/
structure Observation where
  successes : ℝ
  trials : ℝ

/-- The calculator object: prior fields `alpha`, `beta` (constructor
defaults `1`, `1`) and the Monte Carlo sample count (default `10000`). -/
structure BayesianCalculator where
  alpha : ℝ
  beta : ℝ
  monteCarloSamples : ℕ

/-- A JavaScript number that is either an ordinary (real) number or the
`NaN` produced by the division `0/0`. -/
inductive JSNum where
  | num (x : ℝ)
  | nan


/-- JavaScript division as used with the sample-count denominators: on a
zero denominator the code's numerator is always `0`, and `0/0` is `NaN`. -/
noncomputable def jsDiv (a b : ℝ) : JSNum :=
  if b = 0 then JSNum.nan else JSNum.num (a / b)

/-- JavaScript `>=` against a real threshold: `NaN` compares false. -/
noncomputable def jsGe (v : JSNum) (t : ℝ) : Bool :=
  match v with
  | JSNum.num x => if t ≤ x then true else false
  | JSNum.nan => false

/-- JavaScript `<=` against a real threshold: `NaN` compares false. -/
noncomputable def jsLe (v : JSNum) (t : ℝ) : Bool :=
  match v with
  | JSNum.num x => if x ≤ t then true else false
  | JSNum.nan => false

/-- `calculatePosterior(successes, trials, alpha = this.alpha, beta = this.beta)`
(lines 818-824): `failures = trials - successes` and the returned pair is
`{alpha: alpha + successes, beta: beta + failures}`.  The optional prior
arguments default to the calculator's fields, which is how every call in
the repository reaches it, so the prior is taken from the calculator. -/
def calculatePosterior (c : BayesianCalculator) (successes trials : ℝ) :
    BetaParams :=
  { alpha := c.alpha + successes
    beta := c.beta + (trials - successes) }

/-- Number of indices `i < n` with `src (offB + i) > src (offA + i)`:
the count accumulated by the loop of
`calculateProbabilityBGreaterThanAMonteCarlo` (lines 701-706), where the
`A` samples sit at stream offsets `offA..offA+n-1` and the `B` samples at
`offB..offB+n-1`. -/
noncomputable def countBGreater (src : ℕ → ℝ) (offA offB : ℕ) : ℕ → ℕ
  | 0 => 0
  | n + 1 =>
      countBGreater src offA offB n +
        if src (offA + n) < src (offB + n) then 1 else 0

/-- `calculateProbabilityBGreaterThanAMonteCarlo(posteriorA, posteriorB)`
(lines 697-709): draw `n` samples for A, then `n` samples for B
(consuming stream positions `off..off+2n-1`), count the pairs with
`samplesB[i] > samplesA[i]`, and return `count / n` (no guard for
`n = 0`, where the quotient is `0/0`). -/
noncomputable def calculateProbabilityBGreaterThanAMonteCarlo
    (c : BayesianCalculator) (src : ℕ → ℝ) (off : ℕ) : JSNum :=
  jsDiv (countBGreater src off (off + c.monteCarloSamples) c.monteCarloSamples)
    (c.monteCarloSamples : ℝ)

/-- Sum over `i < n` of `max 0 (src (offB + i) - src (offA + i))`: the
loss accumulator of `calculateExpectedLoss` (lines 725-728). -/
noncomputable def sumMax0Diff (src : ℕ → ℝ) (offA offB : ℕ) : ℕ → ℝ
  | 0 => 0
  | n + 1 =>
      sumMax0Diff src offA offB n + max 0 (src (offB + n) - src (offA + n))

/-- Result record of `calculateExpectedLoss`: `{lossA, lossB, probBGreater}`. -/
structure ExpectedLossResult where
  lossA : JSNum
  lossB : JSNum
  probBGreater : JSNum


/-- `calculateExpectedLoss(posteriorA, posteriorB)` (lines 717-735): first
calls `calculateProbabilityBGreaterThanAMonteCarlo` (consuming `2n` fresh
draws at `off..off+2n-1`), then draws a further `n` samples for A (at
`off+2n..off+3n-1`) and `n` samples for B (at `off+3n..off+4n-1`), and
averages `max(0, samplesB[i] - samplesA[i])` and
`max(0, samplesA[i] - samplesB[i])` over those fresh pairs. -/
noncomputable def calculateExpectedLoss (c : BayesianCalculator)
    (src : ℕ → ℝ) (off : ℕ) : ExpectedLossResult :=
  { lossA :=
      jsDiv
        (sumMax0Diff src (off + 2 * c.monteCarloSamples)
          (off + 3 * c.monteCarloSamples) c.monteCarloSamples)
        (c.monteCarloSamples : ℝ)
    lossB :=
      jsDiv
        (sumMax0Diff src (off + 3 * c.monteCarloSamples)
          (off + 2 * c.monteCarloSamples) c.monteCarloSamples)
        (c.monteCarloSamples : ℝ)
    probBGreater := calculateProbabilityBGreaterThanAMonteCarlo c src off }

/-- One record pushed onto `results` by `sequentialTest` (lines 754-761). -/
structure SequentialStep where
  step : ℕ
  probBGreater : JSNum
  expectedLoss : ExpectedLossResult
  posteriorA : BetaParams
  posteriorB : BetaParams
  shouldStop : Bool

/-- Loop body of `sequentialTest` (lines 747-766), recursing over the
paired observation lists (the loop bound is the shorter length, which is
exactly what `List.zip` yields).  At each step the posteriors are computed
from that step's observation records, `probBGreater` is a fresh Monte
Carlo estimate (consuming `2n` draws), `expectedLoss` another (consuming
`4n` draws at the advanced cursor), the record is pushed with
`shouldStop = probBGreater >= threshold || probBGreater <= 1 - threshold`,
and the loop `break`s after the push when that condition holds. -/
noncomputable def sequentialTestGo (c : BayesianCalculator) (src : ℕ → ℝ)
    (threshold : ℝ) : List (Observation × Observation) → ℕ → ℕ →
    List SequentialStep
  | [], _, _ => []
  | (a, b) :: rest, idx, off =>
      let posteriorA := calculatePosterior c a.successes a.trials
      let posteriorB := calculatePosterior c b.successes b.trials
      let probBGreater := calculateProbabilityBGreaterThanAMonteCarlo c src off
      let expectedLoss :=
        calculateExpectedLoss c src (off + 2 * c.monteCarloSamples)
      let stop := jsGe probBGreater threshold || jsLe probBGreater (1 - threshold)
      { step := idx + 1
        probBGreater := probBGreater
        expectedLoss := expectedLoss
        posteriorA := posteriorA
        posteriorB := posteriorB
        shouldStop := stop } ::
        if stop then []
        else sequentialTestGo c src threshold rest (idx + 1)
          (off + 6 * c.monteCarloSamples)

/-- `sequentialTest(dataA, dataB, threshold = 0.95)` (lines 744-769). -/
noncomputable def sequentialTest (c : BayesianCalculator) (src : ℕ → ℝ)
    (dataA dataB : List Observation) (threshold : ℝ) : List SequentialStep :=
  sequentialTestGo c src threshold (dataA.zip dataB) 0 0

/-- Lanczos branch of `logGamma` (lines 454-469), applied after the
reflection test: the code does `x -= 1` and evaluates the coefficient sum
and `log(c) + b*log(a) - a`. -/
noncomputable def logGammaMain (x0 : ℝ) : ℝ :=
  let x := x0 - 1
  let a := x + 5.5
  let b := x + 0.5
  let c : ℝ :=
    0.99999999999980993
      + 676.5203681218851 / (x + 1)
      + (-1259.1392167224028) / (x + 2)
      + 771.32342877765313 / (x + 3)
      + (-176.61502916214059) / (x + 4)
      + 12.507343278686905 / (x + 5)
      + (-0.13857109526572012) / (x + 6)
      + 9.9843695780195716e-6 / (x + 7)
      + 1.5056327351493116e-7 / (x + 8)
  Real.log c + b * Real.log a - a

/-- `logGamma(x)` (lines 449-470): reflection formula for `x < 0.5`
(whose recursive call has argument `1 - x > 0.5` and therefore lands in
the Lanczos branch), Lanczos branch otherwise. -/
noncomputable def logGamma (x : ℝ) : ℝ :=
  if x < 0.5 then
    Real.log Real.pi - Real.log (Real.sin (Real.pi * x)) - logGammaMain (1 - x)
  else logGammaMain x

/-- `betaPDF(x, alpha, beta)` (lines 432-442): `0` outside the open unit
interval (the code's test is `x <= 0 || x >= 1`), otherwise
`exp((alpha-1)·ln x + (beta-1)·ln(1-x) - logBeta)`. -/
noncomputable def betaPDF (x alpha beta : ℝ) : ℝ :=
  if x ≤ 0 ∨ 1 ≤ x then 0
  else
    let logBeta := logGamma alpha + logGamma beta - logGamma (alpha + beta)
    let logPDF :=
      (alpha - 1) * Real.log x + (beta - 1) * Real.log (1 - x) - logBeta
    Real.exp logPDF

/-- `betaCDF(x, alpha, beta)` (lines 503-517): `0` for `x <= 0`, `1` for
`x >= 1`, otherwise a 1000-point left Riemann sum of the PDF over `[0, x]`. -/
noncomputable def betaCDF (x alpha beta : ℝ) : ℝ :=
  if x ≤ 0 then 0
  else if 1 ≤ x then 1
  else
    (Finset.range 1000).sum fun i =>
      betaPDF ((i : ℝ) / 1000 * x) alpha beta * x / 1000

/-- `inverseNormalCDF(p)` (lines 568-592): the Acklam-style rational
approximation with its three branches at `p_low = 0.02425` and
`p_high = 1 - p_low`, coefficient arrays `a`, `b`, `c`, `d` inlined in
the code's Horner order. -/
noncomputable def inverseNormalCDF (p : ℝ) : ℝ :=
  let p_low : ℝ := 0.02425
  let p_high : ℝ := 1 - p_low
  if p < p_low then
    let q := Real.sqrt (-2 * Real.log p)
    let num := ((((-0.007784894002430293 * q + -0.3223964580411365) * q +
      -2.400758277161838) * q + -2.549732539343734) * q +
      4.374664141464968) * q + 2.938163982698783
    let den := (((0.007784695709041462 * q + 0.3224671290700398) * q +
      2.445134137142996) * q + 3.754408661907416) * q + 1
    num / den
  else if p ≤ p_high then
    let q := p - 0.5
    let r := q * q
    let num := ((((-39.69683028665376 * r + 220.9460984245205) * r +
      -275.9285104469687) * r + 138.3577518672690) * r +
      -30.66479806614716) * r + 2.506628277459239
    let den := ((((-54.47609879822406 * r + 161.5858368580409) * r +
      -155.6989798598866) * r + 66.80131188771972) * r +
      -13.28068155288572) * r + 1
    num * q / den
  else
    let q := Real.sqrt (-2 * Real.log (1 - p))
    let num := ((((-0.007784894002430293 * q + -0.3223964580411365) * q +
      -2.400758277161838) * q + -2.549732539343734) * q +
      4.374664141464968) * q + 2.938163982698783
    let den := (((0.007784695709041462 * q + 0.3224671290700398) * q +
      2.445134137142996) * q + 3.754408661907416) * q + 1
    let res := -num / den
    res

/-- Result record of `calculateCredibleInterval`: `{lower, upper}`. -/
structure CredInterval where
  lower : ℝ
  upper : ℝ

/-- `calculateCredibleInterval(posterior, confidence)` (lines 544-561):
normal approximation with `z = inverseNormalCDF(1 - (1-confidence)/2)`,
returning `{max(0, mean - z·sd), min(1, mean + z·sd)}`. -/
noncomputable def calculateCredibleInterval (posterior : BetaParams)
    (confidence : ℝ) : CredInterval :=
  let alpha_level := (1 - confidence) / 2
  let mean := posterior.alpha / (posterior.alpha + posterior.beta)
  let variance :=
    posterior.alpha * posterior.beta /
      ((posterior.alpha + posterior.beta) ^ 2 *
        (posterior.alpha + posterior.beta + 1))
  let stdDev := Real.sqrt variance
  let z := inverseNormalCDF (1 - alpha_level)
  let margin := z * stdDev
  { lower := max 0 (mean - margin)
    upper := min 1 (mean + margin) }

/-- Loop body of `sampleBetaRejection` (lines 678-689), driven by the
stream `u` of per-iteration uniform pairs with a fuel bound: the code's
`while (true)` has no bound, so `none` means the loop is still running
after `fuel` iterations. -/
noncomputable def sampleBetaRejectionFuel (alpha beta : ℝ) :
    (ℕ → ℝ × ℝ) → ℕ → Option ℝ
  | _, 0 => none
  | u, fuel + 1 =>
      let u1 := (u 0).1
      let u2 := (u 0).2
      let x := u1 ^ (1 / alpha)
      let y := u2 ^ (1 / beta)
      if x + y ≤ 1 then some (x / (x + y))
      else sampleBetaRejectionFuel alpha beta (fun n => u (n + 1)) fuel

/-- Loop body of `sampleBetaCheng` (lines 653-670), same fueled reading of
the code's unbounded `while (true)`. -/
noncomputable def sampleBetaChengFuel (alpha beta : ℝ) :
    (ℕ → ℝ × ℝ) → ℕ → Option ℝ
  | _, 0 => none
  | u, fuel + 1 =>
      let a := min alpha beta
      let b := max alpha beta
      let gamma := a + b
      let lambda := Real.sqrt ((gamma - 2) / (2 * a * b - gamma))
      let mu := a + 1 / lambda
      let u1 := (u 0).1
      let u2 := (u 0).2
      let v := lambda * Real.log (u1 / (1 - u1))
      let w := a * Real.exp v
      if gamma * Real.log (gamma / (b + w)) + mu * v - 1.3862944 ≥
          Real.log (u1 * u1 * u2) then
        some (if alpha = a then w / (b + w) else b / (b + w))
      else sampleBetaChengFuel alpha beta (fun n => u (n + 1)) fuel

lemma countBGreater_le (src : ℕ → ℝ) (offA offB n : ℕ) :
    countBGreater src offA offB n ≤ n := by
  induction n with
  | zero => exact Nat.le_refl 0
  | succ n ih =>
      rw [countBGreater]
      split
      · omega
      · omega

/-- C2 (corrected): the claim says `calculatePosterior` signals
`InvalidObservation` and produces no posterior when `trials < successes`
or an input is negative.  The code performs no validation at all: for
every such invalid input the caller still receives the posterior pair
`(prior.alpha + successes, prior.beta + (trials - successes))`. -/
theorem C2_no_validation (c : BayesianCalculator) (s t : ℝ)
    (h : t < s ∨ s < 0 ∨ t < 0) :
    calculatePosterior c s t =
      { alpha := c.alpha + s, beta := c.beta + (t - s) } := rfl

/-- C2 witness: the invalid observation `successes = 1`, `trials = 0`
still yields a posterior pair. -/
theorem C2_witness :
    ((0 : ℝ) < 1 ∨ (1 : ℝ) < 0 ∨ (0 : ℝ) < 0) ∧
    calculatePosterior ⟨1, 1, 0⟩ 1 0 =
      { alpha := (1 : ℝ) + 1, beta := (1 : ℝ) + (0 - 1) } :=
  ⟨Or.inl one_pos, C2_no_validation ⟨1, 1, 0⟩ 1 0 (Or.inl one_pos)⟩

/-- C2 counterexample: with prior `(1,1)` and the invalid observation
`successes = 5`, `trials = 0` (trials < successes), `calculatePosterior`
returns the pair `(6, -4)` instead of failing — the caller receives a
posterior parameter pair, contradicting the claim. -/
theorem C2_counterexample :
    calculatePosterior ⟨1, 1, 0⟩ 5 0 = { alpha := 6, beta := -4 } := by
  simp only [calculatePosterior, BetaParams.mk.injEq]
  norm_num

/-- C3 (confirmed): for every valid observation and positive prior,
`calculatePosterior` returns exactly
`(alpha0 + successes, beta0 + trials - successes)`; with prior `(1,1)`,
`(150, 1000)` yields `(151, 851)` and `(180, 1000)` yields `(181, 821)`. -/
theorem C3_posterior_formula :
    (∀ (alpha0 beta0 : ℝ) (n : ℕ) (s t : ℝ), 0 ≤ s → s ≤ t →
      0 < alpha0 → 0 < beta0 →
      calculatePosterior ⟨alpha0, beta0, n⟩ s t =
        { alpha := alpha0 + s, beta := beta0 + (t - s) }) ∧
    calculatePosterior ⟨1, 1, 10000⟩ 150 1000 = { alpha := 151, beta := 851 } ∧
    calculatePosterior ⟨1, 1, 10000⟩ 180 1000 = { alpha := 181, beta := 821 } := by
  refine ⟨fun alpha0 beta0 n s t _ _ _ _ => rfl, ?_, ?_⟩
  · simp only [calculatePosterior, BetaParams.mk.injEq]
    norm_num
  · simp only [calculatePosterior, BetaParams.mk.injEq]
    norm_num

/-- C3 witness: the general formula applied at the valid observation
`(0, 1)` with the uniform prior. -/
theorem C3_witness :
    (0 : ℝ) ≤ 0 ∧ (0 : ℝ) ≤ 1 ∧ (0 : ℝ) < 1 ∧
    calculatePosterior ⟨1, 1, 0⟩ 0 1 =
      { alpha := (1 : ℝ) + 0, beta := (1 : ℝ) + (1 - 0) } :=
  ⟨le_refl 0, zero_le_one, one_pos,
    C3_posterior_formula.1 1 1 0 0 1 (le_refl 0) zero_le_one one_pos one_pos⟩

/-- C7 (corrected): the claim says the Monte Carlo routine fails fast
with an explicit error when the configured sample count is `0`.  The code
has no such guard: the counting loop is empty and the function returns
the unguarded quotient `0/0`, i.e. JavaScript `NaN`, as an ordinary
result value, not an explicit failure. -/
theorem C7_nan_on_zero_samples (c : BayesianCalculator) (src : ℕ → ℝ)
    (off : ℕ) (h : c.monteCarloSamples = 0) :
    calculateProbabilityBGreaterThanAMonteCarlo c src off = JSNum.nan := by
  simp [calculateProbabilityBGreaterThanAMonteCarlo, h, jsDiv]

/-- C7 witness: a calculator configured with sample count `0`. -/
theorem C7_witness :
    (⟨1, 1, 0⟩ : BayesianCalculator).monteCarloSamples = 0 ∧
    calculateProbabilityBGreaterThanAMonteCarlo ⟨1, 1, 0⟩ (fun _ => 0) 0 =
      JSNum.nan :=
  ⟨rfl, C7_nan_on_zero_samples ⟨1, 1, 0⟩ (fun _ => 0) 0 rfl⟩

/-- C7 counterexample: with sample count `0` the routine does not fail
fast — it evaluates the fraction `count / samples = 0/0` and returns the
`NaN` value to the caller. -/
theorem C7_counterexample :
    calculateProbabilityBGreaterThanAMonteCarlo ⟨1, 1, 0⟩ (fun _ => 0) 0 =
      JSNum.nan := by
  simp [calculateProbabilityBGreaterThanAMonteCarlo, jsDiv, countBGreater]

/-- C5 (corrected): the claim says `expectedLoss` returns the superiority
probability computed from the same paired samples as the losses.  In the
code, `lossA` and `lossB` do share one set of `n` paired samples (stream
positions `off+2n..off+4n-1`), but the returned `probBGreater` is a
separate Monte Carlo call with its own fresh paired samples (positions
`off..off+2n-1`); this theorem pins down exactly which stream positions
each output uses. -/
theorem C5_expectedLoss_uses_separate_samples (c : BayesianCalculator)
    (src : ℕ → ℝ) (off : ℕ) :
    calculateExpectedLoss c src off =
      { lossA :=
          jsDiv
            (sumMax0Diff src (off + 2 * c.monteCarloSamples)
              (off + 3 * c.monteCarloSamples) c.monteCarloSamples)
            (c.monteCarloSamples : ℝ)
        lossB :=
          jsDiv
            (sumMax0Diff src (off + 3 * c.monteCarloSamples)
              (off + 2 * c.monteCarloSamples) c.monteCarloSamples)
            (c.monteCarloSamples : ℝ)
        probBGreater :=
          jsDiv
            (countBGreater src off (off + c.monteCarloSamples)
              c.monteCarloSamples)
            (c.monteCarloSamples : ℝ) } := rfl

/-- C5 counterexample: with sample count `1` and the stream
`0.1, 0.2, 0.5, 0.3`, the returned record is
`{lossA = 0, lossB = 1/5, probBGreater = 1}`, but the superiority
fraction computed from the pair actually used for the losses (positions
`2` and `3`) is `0 ≠ 1` — so the returned probability is not computed
from those same paired samples. -/
theorem C5_counterexample :
    calculateExpectedLoss ⟨1, 1, 1⟩
        (fun k => if k = 0 then (1 : ℝ) / 10 else if k = 1 then 1 / 5
          else if k = 2 then 1 / 2 else 3 / 10) 0 =
      { lossA := JSNum.num 0, lossB := JSNum.num (1 / 5),
        probBGreater := JSNum.num 1 } ∧
    jsDiv
        ((countBGreater
          (fun k => if k = 0 then (1 : ℝ) / 10 else if k = 1 then 1 / 5
            else if k = 2 then 1 / 2 else 3 / 10) 2 3 1 : ℕ) : ℝ) 1 =
      JSNum.num 0 ∧
    JSNum.num (1 : ℝ) ≠ JSNum.num 0 := by
  refine ⟨?_, ?_, ?_⟩
  · norm_num [calculateExpectedLoss,
      calculateProbabilityBGreaterThanAMonteCarlo, sumMax0Diff, countBGreater,
      jsDiv, max_def]
  · norm_num [countBGreater, jsDiv]
  · intro hcontra
    rw [JSNum.num.injEq] at hcontra
    exact one_ne_zero hcontra

lemma sequentialTestGo_length_le (c : BayesianCalculator) (src : ℕ → ℝ)
    (thr : ℝ) (l : List (Observation × Observation)) :
    ∀ idx off, (sequentialTestGo c src thr l idx off).length ≤ l.length := by
  induction l with
  | nil => intro idx off; simp [sequentialTestGo]
  | cons p rest ih =>
      intro idx off
      obtain ⟨a, b⟩ := p
      simp only [sequentialTestGo, List.length_cons]
      split
      · simp
      · exact Nat.succ_le_succ (ih _ _)

lemma sequentialTestGo_posteriorA_map (c : BayesianCalculator) (src : ℕ → ℝ)
    (thr : ℝ) (l : List (Observation × Observation)) :
    ∀ idx off,
      (sequentialTestGo c src thr l idx off).map (fun s => s.posteriorA) =
        (l.take (sequentialTestGo c src thr l idx off).length).map
          (fun p => calculatePosterior c p.1.successes p.1.trials) := by
  induction l with
  | nil => intro idx off; simp [sequentialTestGo]
  | cons p rest ih =>
      intro idx off
      obtain ⟨a, b⟩ := p
      simp only [sequentialTestGo, List.map_cons, List.length_cons]
      split
      · simp
      · simp only [List.take_succ_cons, List.map_cons, List.cons.injEq]
        exact ⟨trivial, ih _ _⟩

lemma sequentialTestGo_posteriorB_map (c : BayesianCalculator) (src : ℕ → ℝ)
    (thr : ℝ) (l : List (Observation × Observation)) :
    ∀ idx off,
      (sequentialTestGo c src thr l idx off).map (fun s => s.posteriorB) =
        (l.take (sequentialTestGo c src thr l idx off).length).map
          (fun p => calculatePosterior c p.2.successes p.2.trials) := by
  induction l with
  | nil => intro idx off; simp [sequentialTestGo]
  | cons p rest ih =>
      intro idx off
      obtain ⟨a, b⟩ := p
      simp only [sequentialTestGo, List.map_cons, List.length_cons]
      split
      · simp
      · simp only [List.take_succ_cons, List.map_cons, List.cons.injEq]
        exact ⟨trivial, ih _ _⟩

lemma sequentialTestGo_get? (c : BayesianCalculator) (src : ℕ → ℝ)
    (thr : ℝ) (l : List (Observation × Observation)) :
    ∀ idx off i s,
      (sequentialTestGo c src thr l idx off).get? i = some s →
      s.step = idx + i + 1 ∧
      s.shouldStop =
        (jsGe s.probBGreater thr || jsLe s.probBGreater (1 - thr)) ∧
      ((sequentialTestGo c src thr l idx off).get? (i + 1) ≠ none →
        s.shouldStop = false) := by
  induction l with
  | nil => intro idx off i s h; simp [sequentialTestGo] at h
  | cons p rest ih =>
      intro idx off i s hget
      obtain ⟨a, b⟩ := p
      simp only [sequentialTestGo] at hget ⊢
      match i with
      | 0 =>
          rw [List.get?_cons_zero, Option.some.injEq] at hget
          subst hget
          refine ⟨by simp, rfl, ?_⟩
          intro hne
          rw [List.get?_cons_succ] at hne
          cases hstop : (jsGe (calculateProbabilityBGreaterThanAMonteCarlo c
              src off) thr ||
            jsLe (calculateProbabilityBGreaterThanAMonteCarlo c src off)
              (1 - thr)) with
          | true => rw [hstop] at hne; simp at hne
          | false => rfl
      | Nat.succ i =>
          rw [List.get?_cons_succ] at hget
          cases hstop : (jsGe (calculateProbabilityBGreaterThanAMonteCarlo c
              src off) thr ||
            jsLe (calculateProbabilityBGreaterThanAMonteCarlo c src off)
              (1 - thr)) with
          | true => rw [hstop] at hget; simp at hget
          | false =>
              rw [hstop, if_neg Bool.false_ne_true] at hget
              obtain ⟨h1, h2, h3⟩ :=
                ih (idx + 1) (off + 6 * c.monteCarloSamples) i s hget
              refine ⟨by omega, h2, ?_⟩
              intro hne
              apply h3
              rw [List.get?_cons_succ, if_neg Bool.false_ne_true] at hne
              exact hne

lemma sequentialTestGo_stopped_last (c : BayesianCalculator) (src : ℕ → ℝ)
    (thr : ℝ) (l : List (Observation × Observation)) :
    ∀ idx off,
      (sequentialTestGo c src thr l idx off).length < l.length →
      ∃ s, (sequentialTestGo c src thr l idx off).getLast? = some s ∧
        s.shouldStop = true := by
  induction l with
  | nil => intro idx off h; simp [sequentialTestGo] at h
  | cons p rest ih =>
      intro idx off h
      obtain ⟨a, b⟩ := p
      revert h
      simp only [sequentialTestGo]
      split
      · rename_i hstop
        intro h
        exact ⟨_, rfl, by simpa using hstop⟩
      · rename_i hstop
        intro h
        have hlen : (sequentialTestGo c src thr rest (idx + 1)
            (off + 6 * c.monteCarloSamples)).length < rest.length := by
          simp only [List.length_cons] at h
          omega
        obtain ⟨s, hs, hstop2⟩ := ih (idx + 1)
          (off + 6 * c.monteCarloSamples) hlen
        refine ⟨s, ?_, hstop2⟩
        cases hgo : sequentialTestGo c src thr rest (idx + 1)
            (off + 6 * c.monteCarloSamples) with
        | nil => rw [hgo] at hs; simp at hs
        | cons y ys =>
            rw [hgo] at hs
            rw [List.getLast?_cons_cons]
            exact hs

/-- C1 (corrected): the claim says the engine maintains cumulative
`(successes, trials)` totals and recomputes each step's posteriors from
them.  In the code `sequentialTest` keeps no cumulative state: every
emitted step's posteriors are computed from that step's own observation
records alone (the caller would have to supply already-accumulated
totals), so the emitted posterior parameters need not be monotone. -/
theorem C1_per_step_posteriors (c : BayesianCalculator) (src : ℕ → ℝ)
    (dataA dataB : List Observation) (thr : ℝ) :
    (sequentialTest c src dataA dataB thr).map (fun s => s.posteriorA) =
      ((dataA.zip dataB).take
          (sequentialTest c src dataA dataB thr).length).map
        (fun p => calculatePosterior c p.1.successes p.1.trials) ∧
    (sequentialTest c src dataA dataB thr).map (fun s => s.posteriorB) =
      ((dataA.zip dataB).take
          (sequentialTest c src dataA dataB thr).length).map
        (fun p => calculatePosterior c p.2.successes p.2.trials) :=
  ⟨sequentialTestGo_posteriorA_map c src thr (dataA.zip dataB) 0 0,
    sequentialTestGo_posteriorB_map c src thr (dataA.zip dataB) 0 0⟩

/-- C1 counterexample: prior `(1,1)`, two Monte Carlo samples per call,
identical arms with per-step observations `(1,1)` then `(0,1)`, and a
stream making the first step's probability `1/2` (so the test does not
stop).  The emitted posterior alphas are `[2, 1]` — they decrease — while
posteriors recomputed from cumulative totals `(1, 2)` would give alpha
`2` at step 2; the engine therefore does not maintain cumulative totals. -/
theorem C1_counterexample :
    (sequentialTest ⟨1, 1, 2⟩
        (fun k => if k = 0 then (1 : ℝ) / 2 else if k = 1 then 1 / 2
          else if k = 2 then 3 / 5 else if k = 3 then 2 / 5 else 0)
        [⟨1, 1⟩, ⟨0, 1⟩] [⟨1, 1⟩, ⟨0, 1⟩] 0.95).map
      (fun s => s.posteriorA.alpha) = [2, 1] ∧
    (calculatePosterior ⟨1, 1, 2⟩ (1 + 0) (1 + 1)).alpha = 2 ∧
    (1 : ℝ) ≠ 2 := by
  refine ⟨?_, ?_, by norm_num⟩
  · norm_num [sequentialTest, sequentialTestGo,
      calculateProbabilityBGreaterThanAMonteCarlo, calculateExpectedLoss,
      calculatePosterior, countBGreater, jsDiv, jsGe, jsLe, List.zip]
  · norm_num [calculatePosterior]

/-- C4 (confirmed): the sequential test walks the paired observation
lists in order up to the shorter length; each emitted record's
`shouldStop` equals `probBGreater >= threshold || probBGreater <= 1 -
threshold` (JavaScript comparisons, `NaN` comparing false); every emitted
record before the last has `shouldStop = false`; and if emission stopped
before the shorter length was exhausted, the last emitted record is a
stopping record. -/
theorem C4_sequential_control_flow (c : BayesianCalculator) (src : ℕ → ℝ)
    (dataA dataB : List Observation) (thr : ℝ) (h1 : 0 < thr)
    (h2 : thr < 1) :
    (sequentialTest c src dataA dataB thr).length ≤
      min dataA.length dataB.length ∧
    (∀ i s, (sequentialTest c src dataA dataB thr).get? i = some s →
      s.step = i + 1 ∧
      s.shouldStop =
        (jsGe s.probBGreater thr || jsLe s.probBGreater (1 - thr)) ∧
      ((sequentialTest c src dataA dataB thr).get? (i + 1) ≠ none →
        s.shouldStop = false)) ∧
    ((sequentialTest c src dataA dataB thr).length <
        min dataA.length dataB.length →
      ∃ s, (sequentialTest c src dataA dataB thr).getLast? = some s ∧
        s.shouldStop = true) := by
  refine ⟨?_, fun i s hs => ?_, fun hlt => ?_⟩
  · have := sequentialTestGo_length_le c src thr (dataA.zip dataB) 0 0
    simpa [sequentialTest, List.length_zip] using this
  · have := sequentialTestGo_get? c src thr (dataA.zip dataB) 0 0 i s hs
    simpa using this
  · exact sequentialTestGo_stopped_last c src thr (dataA.zip dataB) 0 0
      (by simpa [sequentialTest, List.length_zip] using hlt)

/-- C4 witness: empty observation lists with threshold `1/2`. -/
theorem C4_witness :
    (0 : ℝ) < 1 / 2 ∧ (1 : ℝ) / 2 < 1 ∧
    ((sequentialTest ⟨1, 1, 0⟩ (fun _ => 0) [] [] (1 / 2)).length ≤
        min ([] : List Observation).length ([] : List Observation).length ∧
      (∀ i s, (sequentialTest ⟨1, 1, 0⟩ (fun _ => 0) [] []
          (1 / 2)).get? i = some s →
        s.step = i + 1 ∧
        s.shouldStop =
          (jsGe s.probBGreater (1 / 2) || jsLe s.probBGreater (1 - 1 / 2)) ∧
        ((sequentialTest ⟨1, 1, 0⟩ (fun _ => 0) [] [] (1 / 2)).get?
            (i + 1) ≠ none → s.shouldStop = false)) ∧
      ((sequentialTest ⟨1, 1, 0⟩ (fun _ => 0) [] [] (1 / 2)).length <
          min ([] : List Observation).length ([] : List Observation).length →
        ∃ s, (sequentialTest ⟨1, 1, 0⟩ (fun _ => 0) [] []
            (1 / 2)).getLast? = some s ∧ s.shouldStop = true)) :=
  ⟨one_half_pos, by norm_num,
    C4_sequential_control_flow ⟨1, 1, 0⟩ (fun _ => 0) [] [] (1 / 2)
      one_half_pos (by norm_num)⟩

lemma rejection_never_accepts (fuel : ℕ) :
    sampleBetaRejectionFuel 1 1 (fun _ => ((9 : ℝ) / 10, (9 : ℝ) / 10))
      fuel = none := by
  induction fuel with
  | zero => rfl
  | succ fuel ih =>
      simp only [sampleBetaRejectionFuel, one_div_one, Real.rpow_one]
      rw [if_neg (by norm_num : ¬((9 : ℝ) / 10 + 9 / 10 ≤ 1))]
      exact ih

lemma cheng_never_accepts (fuel : ℕ) :
    sampleBetaChengFuel 2 2 (fun _ => ((1 : ℝ) / 2, 0.99999997)) fuel =
      none := by
  induction fuel with
  | zero => rfl
  | succ fuel ih =>
      have h1 : ((1 : ℝ) / 2) / (1 - 1 / 2) = 1 := by norm_num
      have h2 : min (2 : ℝ) 2 = 2 := min_self 2
      have h3 : max (2 : ℝ) 2 = 2 := max_self 2
      have h4 : ((2 : ℝ) + 2) / (2 + 2) = 1 := by norm_num
      have h5 : (1 : ℝ) / 2 * (1 / 2) * 0.99999997 = 0.99999997 / 4 := by
        norm_num
      have hpos : (0 : ℝ) < 0.99999997 := by norm_num
      have hcond : ¬(-(1.3862944 : ℝ) ≥ Real.log (0.99999997 / 4)) := by
        have hlow : 1 - (0.99999997 : ℝ)⁻¹ ≤ Real.log 0.99999997 :=
          Real.one_sub_inv_le_log_of_pos hpos
        have hinv : (0.99999997 : ℝ)⁻¹ ≤ 1.0000000301 := by
          rw [← one_div, div_le_iff₀ hpos]
          norm_num
        have hlog : Real.log (0.99999997 / 4) =
            Real.log 0.99999997 - Real.log 4 :=
          Real.log_div (by norm_num) (by norm_num)
        have hfour : Real.log 4 = 2 * Real.log 2 := by
          rw [show (4 : ℝ) = 2 ^ 2 by norm_num, Real.log_pow]
          norm_num
        have hlt2 : Real.log 2 < 0.6931471808 := Real.log_two_lt_d9
        intro hcontra
        rw [hlog, hfour] at hcontra
        linarith
      simp only [sampleBetaChengFuel, h1, h2, h3, h4, h5, Real.log_one,
        mul_zero, Real.exp_zero, mul_one, add_zero, zero_add, zero_sub]
      rw [if_neg hcond]
      exact ih

/-- C8 (corrected): the claim says both Beta-sampling loops impose a
finite retry ceiling and signal a sampling failure when it is exceeded.
The code's loops are unbounded `while (true)` retries with no ceiling and
no failure signal: on the constant uniform stream `(0.9, 0.9)` the
rejection sampler (shapes `(1,1)`) rejects every iteration, and on the
constant stream `(0.5, 0.99999997)` Cheng's sampler (shapes `(2,2)`)
rejects every iteration, so for any number of iterations neither loop has
returned. -/
theorem C8_no_retry_ceiling :
    (∀ fuel,
      sampleBetaRejectionFuel 1 1 (fun _ => ((9 : ℝ) / 10, (9 : ℝ) / 10))
        fuel = none) ∧
    (∀ fuel,
      sampleBetaChengFuel 2 2 (fun _ => ((1 : ℝ) / 2, 0.99999997)) fuel =
        none) :=
  ⟨rejection_never_accepts, cheng_never_accepts⟩

/-- C8 counterexample: after `1000` iterations — far beyond any
reasonable retry ceiling — neither sampling loop has terminated or
signalled a failure on its adversarial uniform stream. -/
theorem C8_counterexample :
    sampleBetaRejectionFuel 1 1 (fun _ => ((9 : ℝ) / 10, (9 : ℝ) / 10))
        1000 = none ∧
    sampleBetaChengFuel 2 2 (fun _ => ((1 : ℝ) / 2, 0.99999997)) 1000 =
      none :=
  ⟨rejection_never_accepts 1000, cheng_never_accepts 1000⟩

lemma acklam_mid_num_pos (r : ℝ) (h0 : 0 ≤ r) (hR : r ≤ 0.2263380625) :
    0 < ((((-39.69683028665376 * r + 220.9460984245205) * r +
        -275.9285104469687) * r + 138.3577518672690) * r +
        -30.66479806614716) * r + 2.506628277459239 := by
  have hs : (0 : ℝ) ≤ 0.2263380625 - r := by linarith
  nlinarith [hs, mul_nonneg hs hs, mul_nonneg (mul_nonneg hs hs) hs,
    mul_nonneg (mul_nonneg (mul_nonneg hs hs) hs) hs,
    mul_nonneg (mul_nonneg (mul_nonneg (mul_nonneg hs hs) hs) hs) hs]

lemma acklam_mid_den_pos (r : ℝ) (h0 : 0 ≤ r) (hR : r ≤ 0.2263380625) :
    0 < ((((-54.47609879822406 * r + 161.5858368580409) * r +
        -155.6989798598866) * r + 66.80131188771972) * r +
        -13.28068155288572) * r + 1 := by
  have hs : (0 : ℝ) ≤ 0.2263380625 - r := by linarith
  nlinarith [hs, mul_nonneg hs hs, mul_nonneg (mul_nonneg hs hs) hs,
    mul_nonneg (mul_nonneg (mul_nonneg hs hs) hs) hs,
    mul_nonneg (mul_nonneg (mul_nonneg (mul_nonneg hs hs) hs) hs) hs]

lemma acklam_tail_num_nonpos (q : ℝ) (hq : 2 ≤ q) :
    ((((-0.007784894002430293 * q + -0.3223964580411365) * q +
        -2.400758277161838) * q + -2.549732539343734) * q +
        4.374664141464968) * q + 2.938163982698783 ≤ 0 := by
  have hs : (0 : ℝ) ≤ q - 2 := by linarith
  nlinarith [hs, mul_nonneg hs hs, mul_nonneg (mul_nonneg hs hs) hs,
    mul_nonneg (mul_nonneg (mul_nonneg hs hs) hs) hs,
    mul_nonneg (mul_nonneg (mul_nonneg (mul_nonneg hs hs) hs) hs) hs]

lemma acklam_tail_den_pos (q : ℝ) (hq : 0 ≤ q) :
    0 < (((0.007784695709041462 * q + 0.3224671290700398) * q +
        2.445134137142996) * q + 3.754408661907416) * q + 1 := by
  nlinarith [hq, mul_nonneg hq hq, mul_nonneg (mul_nonneg hq hq) hq,
    mul_nonneg (mul_nonneg (mul_nonneg hq hq) hq) hq]

lemma inverseNormalCDF_nonneg (p : ℝ) (h1 : 1 / 2 < p) (h2 : p < 1) :
    0 ≤ inverseNormalCDF p := by
  simp only [inverseNormalCDF]
  rw [if_neg (by norm_num at h1 ⊢; linarith : ¬(p < 0.02425))]
  by_cases hp : p ≤ 1 - 0.02425
  · rw [if_pos hp]
    have hq0 : (0 : ℝ) ≤ p - 0.5 := by norm_num at h1 ⊢; linarith
    have hr0 : (0 : ℝ) ≤ (p - 0.5) * (p - 0.5) := mul_self_nonneg _
    have hrR : (p - 0.5) * (p - 0.5) ≤ 0.2263380625 := by
      have hle : p - 0.5 ≤ 0.47575 := by norm_num at hp ⊢; linarith
      calc (p - 0.5) * (p - 0.5) ≤ 0.47575 * 0.47575 :=
            mul_self_le_mul_self hq0 hle
        _ = 0.2263380625 := by norm_num
    exact div_nonneg
      (mul_nonneg (acklam_mid_num_pos _ hr0 hrR).le hq0)
      (acklam_mid_den_pos _ hr0 hrR).le
  · rw [if_neg hp]
    have hpp : (0 : ℝ) < 1 - p := by linarith
    have hexp2 : Real.exp 2 < 7.3890561 := by
      calc Real.exp 2 = Real.exp 1 * Real.exp 1 := by
            rw [← Real.exp_add]; norm_num
        _ < 2.7182818286 * 2.7182818286 :=
            mul_self_lt_mul_self (Real.exp_pos 1).le Real.exp_one_lt_d9
        _ < 7.3890561 := by norm_num
    have hexp : (0.02425 : ℝ) ≤ Real.exp (-2) := by
      rw [Real.exp_neg]
      have hle : Real.exp 2 ≤ 7.3890561 := hexp2.le
      have := inv_anti₀ (Real.exp_pos 2) hle
      calc (0.02425 : ℝ) ≤ (7.3890561 : ℝ)⁻¹ := by norm_num
        _ ≤ (Real.exp 2)⁻¹ := this
    have hlogle : Real.log (1 - p) ≤ -2 := by
      have hle : (1 : ℝ) - p ≤ Real.exp (-2) := by
        have : (1 : ℝ) - p ≤ 0.02425 := by norm_num at hp ⊢; linarith
        linarith
      calc Real.log (1 - p) ≤ Real.log (Real.exp (-2)) :=
            Real.log_le_log hpp hle
        _ = -2 := Real.log_exp _
    have hq2 : (2 : ℝ) ≤ Real.sqrt (-2 * Real.log (1 - p)) := by
      have h4le : (4 : ℝ) ≤ -2 * Real.log (1 - p) := by linarith
      calc (2 : ℝ) = Real.sqrt (2 ^ 2) := (Real.sqrt_sq (by norm_num)).symm
        _ ≤ Real.sqrt (-2 * Real.log (1 - p)) := by
            rw [Real.sqrt_le_sqrt_iff (by linarith)]
            norm_num
            linarith
    have hq0 : (0 : ℝ) ≤ Real.sqrt (-2 * Real.log (1 - p)) :=
      Real.sqrt_nonneg _
    exact div_nonneg
      (neg_nonneg.mpr (acklam_tail_num_nonpos _ hq2))
      (acklam_tail_den_pos _ hq0).le

/-- C6 (confirmed): for positive shape parameters and any confidence in
`(0,1)`, `calculateCredibleInterval` returns exactly
`[max(0, mean - z·sd), min(1, mean + z·sd)]` with
`mean = alpha/(alpha+beta)`,
`sd = sqrt(alpha·beta/((alpha+beta)^2·(alpha+beta+1)))` and
`z = inverseNormalCDF(1 - (1-confidence)/2)`; and since `z ≥ 0` on the
relevant domain, the interval brackets the mean. -/
theorem C6_credible_interval (alpha beta conf : ℝ) (ha : 0 < alpha)
    (hb : 0 < beta) (hc1 : 0 < conf) (hc2 : conf < 1) :
    calculateCredibleInterval ⟨alpha, beta⟩ conf =
      { lower := max 0 (alpha / (alpha + beta) -
          inverseNormalCDF (1 - (1 - conf) / 2) *
            Real.sqrt (alpha * beta /
              ((alpha + beta) ^ 2 * (alpha + beta + 1)))),
        upper := min 1 (alpha / (alpha + beta) +
          inverseNormalCDF (1 - (1 - conf) / 2) *
            Real.sqrt (alpha * beta /
              ((alpha + beta) ^ 2 * (alpha + beta + 1)))) } ∧
    (calculateCredibleInterval ⟨alpha, beta⟩ conf).lower ≤
      alpha / (alpha + beta) ∧
    alpha / (alpha + beta) ≤
      (calculateCredibleInterval ⟨alpha, beta⟩ conf).upper := by
  have hz : 0 ≤ inverseNormalCDF (1 - (1 - conf) / 2) :=
    inverseNormalCDF_nonneg _ (by linarith) (by linarith)
  have hmargin : 0 ≤ inverseNormalCDF (1 - (1 - conf) / 2) *
      Real.sqrt (alpha * beta / ((alpha + beta) ^ 2 * (alpha + beta + 1))) :=
    mul_nonneg hz (Real.sqrt_nonneg _)
  have hm0 : 0 ≤ alpha / (alpha + beta) :=
    div_nonneg ha.le (by linarith)
  have hm1 : alpha / (alpha + beta) ≤ 1 :=
    (div_le_one (by linarith)).mpr (by linarith)
  refine ⟨rfl, ?_, ?_⟩
  · simp only [calculateCredibleInterval]
    exact max_le hm0 (by linarith)
  · simp only [calculateCredibleInterval]
    exact le_min hm1 (by linarith)

/-- C6 witness: shapes `(1,1)` with confidence `1/2`. -/
theorem C6_witness :
    (0 : ℝ) < 1 ∧ (0 : ℝ) < 1 / 2 ∧ (1 : ℝ) / 2 < 1 ∧
    ((calculateCredibleInterval ⟨1, 1⟩ (1 / 2)).lower ≤
        (1 : ℝ) / (1 + 1) ∧
      (1 : ℝ) / (1 + 1) ≤
        (calculateCredibleInterval ⟨1, 1⟩ (1 / 2)).upper) :=
  ⟨one_pos, one_half_pos, by norm_num,
    (C6_credible_interval 1 1 (1 / 2) one_pos one_pos one_half_pos
        (by norm_num)).2⟩

/-- C9 (confirmed): for positive shapes, `betaPDF` returns `0` everywhere
outside the open unit interval (including exactly at `0` and `1`), and
`betaCDF` returns `0` for `x ≤ 0` and `1` for `x ≥ 1`; all of these are
returned values, not errors. -/
theorem C9_boundary_values (alpha beta x : ℝ) (ha : 0 < alpha)
    (hb : 0 < beta) :
    ((x ≤ 0 ∨ 1 ≤ x) → betaPDF x alpha beta = 0) ∧
    (x ≤ 0 → betaCDF x alpha beta = 0) ∧
    (1 ≤ x → betaCDF x alpha beta = 1) := by
  refine ⟨fun h => ?_, fun h => ?_, fun h => ?_⟩
  · rw [betaPDF, if_pos h]
  · rw [betaCDF, if_pos h]
  · rw [betaCDF, if_neg (by linarith), if_pos h]

/-- C9 witness: boundary evaluations at `x = 0` and `x = 1` for the
uniform shape pair. -/
theorem C9_witness :
    (0 : ℝ) < 1 ∧ betaPDF 0 1 1 = 0 ∧ betaCDF 0 1 1 = 0 ∧ betaCDF 1 1 1 = 1 :=
  ⟨one_pos,
    (C9_boundary_values 1 1 0 one_pos one_pos).1 (Or.inl (le_refl 0)),
    (C9_boundary_values 1 1 0 one_pos one_pos).2.1 (le_refl 0),
    (C9_boundary_values 1 1 1 one_pos one_pos).2.2 (le_refl 1)⟩

/-- C10 (confirmed): with a positive configured sample count `n`, the
Monte Carlo estimate is exactly `k / n` where `k` is the number of paired
draws whose B sample strictly exceeds the A sample; `k ≤ n`, so the
returned value lies in `[0, 1]` although this code path applies no
clamping. -/
theorem C10_probability_in_unit_interval (c : BayesianCalculator)
    (src : ℕ → ℝ) (off : ℕ) (h : 0 < c.monteCarloSamples) :
    calculateProbabilityBGreaterThanAMonteCarlo c src off =
      JSNum.num
        ((countBGreater src off (off + c.monteCarloSamples)
            c.monteCarloSamples : ℝ) / (c.monteCarloSamples : ℝ)) ∧
    countBGreater src off (off + c.monteCarloSamples) c.monteCarloSamples ≤
      c.monteCarloSamples ∧
    0 ≤ (countBGreater src off (off + c.monteCarloSamples)
          c.monteCarloSamples : ℝ) / (c.monteCarloSamples : ℝ) ∧
    (countBGreater src off (off + c.monteCarloSamples)
        c.monteCarloSamples : ℝ) / (c.monteCarloSamples : ℝ) ≤ 1 := by
  have hne : (c.monteCarloSamples : ℝ) ≠ 0 := Nat.cast_ne_zero.2 h.ne'
  refine ⟨?_, countBGreater_le src off _ _, ?_, ?_⟩
  · rw [calculateProbabilityBGreaterThanAMonteCarlo, jsDiv, if_neg hne]
  · exact div_nonneg (Nat.cast_nonneg _) (Nat.cast_nonneg _)
  · exact (div_le_one (by positivity)).2
      (Nat.cast_le.2 (countBGreater_le src off _ _))

/-- C10 witness: a calculator with sample count `1`. -/
theorem C10_witness :
    0 < (⟨1, 1, 1⟩ : BayesianCalculator).monteCarloSamples ∧
    (calculateProbabilityBGreaterThanAMonteCarlo ⟨1, 1, 1⟩ (fun _ => 0) 0 =
      JSNum.num
        ((countBGreater (fun _ => 0) 0 1 1 : ℝ) / ((1 : ℕ) : ℝ)) ∧
    countBGreater (fun _ => 0) 0 1 1 ≤ 1 ∧
    0 ≤ (countBGreater (fun _ => 0) 0 1 1 : ℝ) / ((1 : ℕ) : ℝ) ∧
    (countBGreater (fun _ => 0) 0 1 1 : ℝ) / ((1 : ℕ) : ℝ) ≤ 1) :=
  ⟨Nat.one_pos,
    C10_probability_in_unit_interval ⟨1, 1, 1⟩ (fun _ => 0) 0 Nat.one_pos⟩

end BayesDash
